import Mathlib

/-!
Shallow embedding of the DragonResist-EUV exposure model
(src/models/euv_exposure.py) and proofs about the claims of its
specification.

Modelling conventions:
* numpy 2D float arrays become `Grid := List (List ℝ)`; all pointwise
  numpy operations become maps/zips over the nested lists;
* Python float arithmetic is modelled by exact real arithmetic; a float
  operation that produces NaN (square root of a negative number, mean of
  an empty array, 0/0) is modelled by `Option ℝ` with `none` standing for
  the NaN result;
* Python `int(x)` on a float truncates toward zero and is modelled by
  `truncInt`;
* `random.gauss` outputs are modelled by an explicit stream
  `draws : ℕ → ℝ` of realized draw values, consumed in program order,
  together with a cursor that is threaded through the computation;
* `scipy.ndimage.gaussian_filter` is external library code; it is passed
  in as an abstract function parameter `gf : Grid → ℝ → Grid`
  (map and sigma), since no claim depends on its concrete values.
-/

namespace DragonResist

/-- A 2D array of floats, row major, as produced by numpy. -/
abbrev Grid := List (List ℝ)

/-- Pointwise map over a grid (numpy elementwise operation). -/
def gmap (f : ℝ → ℝ) (g : Grid) : Grid :=
  g.map (List.map f)

/-- Pointwise binary operation of two same-shaped grids. -/
def gzip (f : ℝ → ℝ → ℝ) (a b : Grid) : Grid :=
  List.zipWith (List.zipWith f) a b

/-- np.zeros_like. -/
def zerosLike (g : Grid) : Grid :=
  gmap (fun _ => 0) g

/-- np.ones_like. -/
def onesLike (g : Grid) : Grid :=
  gmap (fun _ => 1) g

/-- np.sum of a grid. -/
def gridSum (g : Grid) : ℝ :=
  (g.map List.sum).sum

/-- np.size of a grid: total number of elements. -/
def gridSize (g : Grid) : ℕ :=
  (g.map List.length).sum

/-- Read cell (y, x) of a grid, defaulting to 0 outside (numpy arrays are
rectangular, so inside the program every access is in range). -/
def cell (g : Grid) (y x : ℕ) : ℝ :=
  (g.getD y []).getD x 0

/-- Add v to cell (y, x) of a grid (numpy `g[y, x] += v`). -/
def setAdd (g : Grid) (y x : ℕ) (v : ℝ) : Grid :=
  g.set y ((g.getD y []).set x (((g.getD y []).getD x 0) + v))

/-- The grid is a rectangular h × w array, as every numpy 2D array is. -/
def Rect (h w : ℕ) (g : Grid) : Prop :=
  g.length = h ∧ ∀ row ∈ g, row.length = w

/-- Python `int(x)` applied to a float: truncation toward zero. -/
noncomputable def truncInt (x : ℝ) : ℤ :=
  if 0 ≤ x then ⌊x⌋ else ⌈x⌉

/-- np.diff of a 1D array: consecutive differences. -/
def npDiff (l : List ℝ) : List ℝ :=
  List.zipWith (fun a b => b - a) l l.tail

/-- np.mean of a 1D array; the mean of an empty array is the float NaN
(numpy computes 0.0/0), modelled as `none`. -/
noncomputable def npMean (l : List ℝ) : Option ℝ :=
  if l.isEmpty then none else some (l.sum / l.length)

/-- np.std of a 1D array (population standard deviation, ddof = 0); only
ever called on arrays with at least two entries in this program. -/
noncomputable def npStd (l : List ℝ) : ℝ :=
  Real.sqrt ((l.map (fun x => (x - l.sum / l.length) ^ 2)).sum / l.length)

/-- np.linspace. -/
noncomputable def linspace (a b : ℝ) (num : ℕ) : List ℝ :=
  if num = 0 then []
  else if num = 1 then [a]
  else (List.range num).map
    (fun i : ℕ => a + (b - a) * (i : ℝ) / ((num : ℝ) - 1))

/-! ## Configuration records (the dictionaries built in `__init__`) -/

structure ToolParams where
  wavelength_nm : ℝ
  numerical_aperture : ℝ
  illumination_sigma : ℝ
  dose_mJ_cm2 : ℝ
  exposure_time_s : ℝ
  source_power_W : ℝ
  photons_per_nm2 : ℝ

/-- Default tool parameters (ASML NXE:3800E) from `__init__`. -/
noncomputable def defaultTool : ToolParams :=
  { wavelength_nm := 13.5
    numerical_aperture := 0.33
    illumination_sigma := 0.55
    dose_mJ_cm2 := 30.0
    exposure_time_s := 0.1
    source_power_W := 1000.0
    photons_per_nm2 := 2.45e15 }

structure ResistParams where
  type : String
  absorption_coefficient : ℝ
  secondary_electron_yield : ℝ
  electron_scattering_range_nm : ℝ
  chemical_amplification_factor : ℝ
  acid_diffusion_length_nm : ℝ
  quenching_factor : ℝ
  reaction_rate_constant : ℝ
  stochastic_factor : ℝ
  development_rate_base_nm_s : ℝ
  development_contrast : ℝ

/-- Default resist parameters (validated CAR resist) from `__init__`. -/
noncomputable def defaultResist : ResistParams :=
  { type := "CAR"
    absorption_coefficient := 0.78
    secondary_electron_yield := 3.2
    electron_scattering_range_nm := 4.8
    chemical_amplification_factor := 500
    acid_diffusion_length_nm := 5.2
    quenching_factor := 0.15
    reaction_rate_constant := 0.85
    stochastic_factor := 1.25
    development_rate_base_nm_s := 0.5
    development_contrast := 4.5 }

structure PhysConstants where
  eV_per_photon : ℝ
  electron_mean_free_path_nm : ℝ
  avogadro : ℝ
  nm_per_pixel : ℝ

/-- Physics constants from `__init__`. -/
noncomputable def defaultConstants : PhysConstants :=
  { eV_per_photon := 92.0
    electron_mean_free_path_nm := 2.3
    avogadro := 6.022e23
    nm_per_pixel := 0.5 }

/-- The `self.metrics` dictionary.  `cd_error_nm` is `Option ℝ` because the
program can store a float NaN there; `pattern_fidelity` is absent from the
dictionary until the first run writes it. -/
structure Metrics where
  effective_dose_mJ_cm2 : ℝ
  ler_nm : ℝ
  lwr_nm : ℝ
  cd_error_nm : Option ℝ
  stochastic_defects_per_um2 : ℝ
  process_window_size : ℝ
  pattern_fidelity : Option ℝ

/-- Validation metrics as set in `__init__` (all 0.0; no fidelity key). -/
def initMetrics : Metrics :=
  { effective_dose_mJ_cm2 := 0
    ler_nm := 0
    lwr_nm := 0
    cd_error_nm := some 0
    stochastic_defects_per_um2 := 0
    process_window_size := 0
    pattern_fidelity := none }

/-- The state of an `EUVExposureModel` instance. -/
structure Model where
  tool : ToolParams
  resist : ResistParams
  constants : PhysConstants
  metrics : Metrics

/-- A model instance built with default parameters. -/
noncomputable def defaultModel : Model :=
  { tool := defaultTool
    resist := defaultResist
    constants := defaultConstants
    metrics := initMetrics }

/-! ## calculate_photon_statistics -/

/-- The dictionary returned by `calculate_photon_statistics`.  Shot noise
and relative shot noise are `Option ℝ`: `np.sqrt` of a negative total is
the float NaN and `shot_noise / total_photons` is NaN when the total is
zero (0.0/0.0) or when the numerator is already NaN. -/
structure PhotonStats where
  total_photons : ℝ
  shot_noise : Option ℝ
  relative_shot_noise : Option ℝ
  photons_per_nm2 : ℝ

/-- `calculate_photon_statistics`.  Returns the statistics record and the
updated tool record (the method mutates `self.tool['photons_per_nm2']`). -/
noncomputable def calculate_photon_statistics (tool : ToolParams)
    (constants : PhysConstants) (target_area_um2 : ℝ) :
    PhotonStats × ToolParams :=
  let dose_j_cm2 := tool.dose_mJ_cm2 * 1e-3
  let energy_per_photon_j := constants.eV_per_photon * 1.602e-19
  let photons_per_cm2 := dose_j_cm2 / energy_per_photon_j
  let photons_per_nm2 := photons_per_cm2 * 1e-14
  let tool' := { tool with photons_per_nm2 := photons_per_nm2 }
  let area_nm2 := target_area_um2 * 1e6
  let total_photons := photons_per_nm2 * area_nm2
  let shot_noise : Option ℝ :=
    if total_photons < 0 then none else some (Real.sqrt total_photons)
  let relative_shot_noise : Option ℝ :=
    if total_photons ≤ 0 then none
    else some (Real.sqrt total_photons / total_photons)
  (⟨total_photons, shot_noise, relative_shot_noise, photons_per_nm2⟩, tool')

/-! ## simulate_electron_cascade -/

/-- The inner `for _ in range(num_electrons)` loop of
`simulate_electron_cascade`: each electron consumes two draws (dx then dy),
truncates them toward zero, and deposits 1.0 at the displaced cell when it
is inside the h × w grid, silently dropping it otherwise.  The state is
the electron map together with the draw-stream cursor. -/
noncomputable def depositElectrons (draws : ℕ → ℝ) (x y h w : ℕ) :
    ℕ → Grid × ℕ → Grid × ℕ
  | 0, st => st
  | n + 1, (g, k) =>
      let dx := truncInt (draws k)
      let dy := truncInt (draws (k + 1))
      let nx := (x : ℤ) + dx
      let ny := (y : ℤ) + dy
      let g' :=
        if 0 ≤ nx ∧ nx < w ∧ 0 ≤ ny ∧ ny < h then
          setAdd g ny.toNat nx.toNat 1.0
        else g
      depositElectrons draws x y h w n (g', k + 2)

/-- `simulate_electron_cascade`.  Takes the realized Gaussian draw stream
and the current cursor; returns the electron map and the new cursor. -/
noncomputable def simulate_electron_cascade (resist : ResistParams)
    (draws : ℕ → ℝ) (k : ℕ) (photon_map : Grid) : Grid × ℕ :=
  let height := photon_map.length
  let width := (photon_map.headD []).length
  (List.range height).foldl (fun st y =>
    (List.range width).foldl (fun st x =>
      if cell photon_map y x > 0 then
        let num_electrons :=
          (truncInt (cell photon_map y x * resist.secondary_electron_yield)).toNat
        depositElectrons draws x y height width num_electrons st
      else st) st) (zerosLike photon_map, k)

/-! ## simulate_chemical_reactions -/

/-- `simulate_chemical_reactions`.  Starts from `np.zeros` and fills the
cells with positive electron energy according to the chemistry branch; a
chemistry that is neither CAR nor MeOx leaves the zero map untouched. -/
noncomputable def simulate_chemical_reactions (resist : ResistParams)
    (electron_map : Grid) : Grid :=
  if resist.type = "CAR" then
    gmap (fun e =>
      if e > 0 then
        e * resist.chemical_amplification_factor *
          (1.0 - resist.quenching_factor) * resist.reaction_rate_constant
      else 0) electron_map
  else if resist.type = "MeOx" then
    gmap (fun e => if e > 0 then e * 0.85 else 0) electron_map
  else zerosLike electron_map

/-! ## simulate_acid_diffusion -/

/-- `simulate_acid_diffusion`: a Gaussian blur with sigma equal to the
acid diffusion length in pixels; the scipy filter is the abstract `gf`. -/
noncomputable def simulate_acid_diffusion (gf : Grid → ℝ → Grid)
    (resist : ResistParams) (constants : PhysConstants)
    (acid_map : Grid) : Grid :=
  let sigma_pixels := resist.acid_diffusion_length_nm / constants.nm_per_pixel
  gf acid_map sigma_pixels

/-! ## Development -/

/-- `calculate_development_rate`: a sigmoid of acid concentration. -/
noncomputable def calculate_development_rate (resist : ResistParams)
    (acid_map : Grid) : Grid :=
  gmap (fun c =>
    resist.development_rate_base_nm_s /
      (1.0 + Real.exp (-resist.development_contrast * (c - 0.5)))) acid_map

/-- `simulate_development`: subtract rate × time from a uniform 40 nm
resist and binarize on remaining thickness > 0. -/
noncomputable def simulate_development (rate_map : Grid)
    (development_time_s : ℝ) : Grid :=
  let development_depth := gmap (fun r => r * development_time_s) rate_map
  let resist_profile :=
    gzip (fun a b => a - b) (gmap (fun _ => 1.0 * 40.0) rate_map)
      development_depth
  gmap (fun p => if p > 0 then 1.0 else 0.0) resist_profile

/-! ## calculate_stochastic_metrics -/

/-- Column indices (row major) where a row's first difference equals 1:
`np.where(np.diff(pattern_map, axis=1) == 1)[1]`. -/
noncomputable def edgePositions (pattern_map : Grid) : List ℕ :=
  (pattern_map.map (fun row =>
    (List.range (npDiff row).length).filter
      (fun j => (npDiff row).getD j 0 = 1))).flatten

/-- Sum of the 3 × 3 neighborhood `g[y-1:y+2, x-1:x+2]` of an interior
cell (1 ≤ y ≤ h-2, 1 ≤ x ≤ w-2, so the slice is a full 3 × 3 block). -/
noncomputable def nbhdSum (g : Grid) (y x : ℕ) : ℝ :=
  ((List.range 3).map (fun dy =>
    ((List.range 3).map (fun dx => cell g (y - 1 + dy) (x - 1 + dx))).sum)).sum

/-- The defect-counting double loop of `calculate_stochastic_metrics`:
interior cells that are isolated resist pixels or missing pixels. -/
noncomputable def defectCount (g : Grid) : ℕ :=
  let h := g.length
  let w := (g.headD []).length
  ((List.range (h - 2)).map (fun y0 =>
    ((List.range (w - 2)).filter (fun x0 =>
      (cell g (y0 + 1) (x0 + 1) = 1 ∧ nbhdSum g (y0 + 1) (x0 + 1) ≤ 2) ∨
      (cell g (y0 + 1) (x0 + 1) = 0 ∧ 8 ≤ nbhdSum g (y0 + 1) (x0 + 1)))).length)).sum

/-- The dictionary returned by `calculate_stochastic_metrics`.
`cd_error_nm` is `Option ℝ` because `np.mean` of an empty difference array
(fewer than two detected edges) is the float NaN, modelled as `none`, and
the subtraction of the target CD propagates it. -/
structure StochMetrics where
  ler_nm : ℝ
  cd_error_nm : Option ℝ
  stochastic_defects_per_um2 : ℝ
  pattern_fidelity : ℝ

/-- `calculate_stochastic_metrics`. -/
noncomputable def calculate_stochastic_metrics (constants : PhysConstants)
    (pattern_map : Grid) (target_cd_nm : ℝ) : StochMetrics :=
  let edge_positions : List ℝ := (edgePositions pattern_map).map (fun n => (n : ℝ))
  let ler :=
    if 1 < edge_positions.length then
      npStd edge_positions * constants.nm_per_pixel
    else 0.0
  let measured_cd :=
    (npMean (npDiff edge_positions)).map (fun m => m * constants.nm_per_pixel)
  let cd_error := measured_cd.map (fun m => m - target_cd_nm)
  let defects := defectCount pattern_map
  let defect_density :=
    (defects : ℝ) / (gridSize pattern_map * constants.nm_per_pixel ^ 2 * 1e-6)
  { ler_nm := ler
    cd_error_nm := cd_error
    stochastic_defects_per_um2 := defect_density
    pattern_fidelity := 1.0 - defect_density * 0.01 }

/-! ## run_full_simulation -/

/-- The result dictionary of `run_full_simulation`. -/
structure SimResult where
  photon_stats : PhotonStats
  aerial_image : Grid
  photon_map : Grid
  electron_map : Grid
  acid_map : Grid
  diffused_acid : Grid
  rate_map : Grid
  final_pattern : Grid
  metrics : Metrics

/-- `run_full_simulation`.  `gf` stands for `scipy.ndimage.gaussian_filter`
and `draws`/`k` for the global `random` stream and its cursor; the returned
model carries the mutations of `self.tool` and `self.metrics`. -/
noncomputable def run_full_simulation (gf : Grid → ℝ → Grid) (draws : ℕ → ℝ)
    (model : Model) (k : ℕ) (target_pattern : Grid) (target_cd_nm : ℝ)
    (development_time_s : ℝ) : SimResult × Model × ℕ :=
  let area := gridSum target_pattern * model.constants.nm_per_pixel ^ 2 * 1e-6
  let ps := calculate_photon_statistics model.tool model.constants area
  let photon_stats := ps.1
  let tool' := ps.2
  let sigma_psf := 15.0 / model.constants.nm_per_pixel
  let aerial_image := gf target_pattern sigma_psf
  let photon_map :=
    gmap (fun v => v * model.resist.absorption_coefficient *
      photon_stats.photons_per_nm2) aerial_image
  let ec := simulate_electron_cascade model.resist draws k photon_map
  let electron_map := ec.1
  let acid_map := simulate_chemical_reactions model.resist electron_map
  let diffused_acid :=
    simulate_acid_diffusion gf model.resist model.constants acid_map
  let rate_map := calculate_development_rate model.resist diffused_acid
  let final_pattern := simulate_development rate_map development_time_s
  let m := calculate_stochastic_metrics model.constants final_pattern target_cd_nm
  let metrics' :=
    { model.metrics with
        ler_nm := m.ler_nm
        cd_error_nm := m.cd_error_nm
        stochastic_defects_per_um2 := m.stochastic_defects_per_um2
        pattern_fidelity := some m.pattern_fidelity
        effective_dose_mJ_cm2 := tool'.dose_mJ_cm2 }
  (⟨photon_stats, aerial_image, photon_map, electron_map, acid_map,
    diffused_acid, rate_map, final_pattern, metrics'⟩,
   { model with tool := tool', metrics := metrics' }, ec.2)

/-! ## calculate_process_window -/

/-- The dictionary returned by `calculate_process_window`. -/
structure PWResult where
  dose_values : List ℝ
  focus_values : List ℝ
  cd_errors : List (List (Option ℝ))
  lers : List (List ℝ)
  process_window : List (List Bool)
  window_area : ℝ
  target_cd_nm : ℝ

/-- The synthetic 1000 × 1000 line target built inside
`calculate_process_window`: zeros with a single vertical line of
`int(target_cd_nm / nm_per_pixel)` columns starting at column 500. -/
noncomputable def pwTargetPattern (constants : PhysConstants)
    (target_cd_nm : ℝ) : Grid :=
  let line_width := (truncInt (target_cd_nm / constants.nm_per_pixel)).toNat
  (List.range 1000).map (fun _ =>
    (List.range 1000).map (fun x =>
      if 500 ≤ x ∧ x < 500 + line_width then 1.0 else 0.0))

/-- State of the inner (focus) loop of `calculate_process_window`: the
mutated model, the draw cursor, and one row of the CD-error and LER
matrices. -/
abbrev PWInnerState := (Model × ℕ) × List (Option ℝ) × List ℝ

/-- State of the outer (dose) loop of `calculate_process_window`. -/
abbrev PWOuterState := (Model × ℕ) × List (List (Option ℝ)) × List (List ℝ)

/-- The body of the inner (focus) loop of `calculate_process_window`:
substitute the dose, compute the (never used) focus-adjusted sigma, run
the full pipeline, record CD error and LER, restore the dose. -/
noncomputable def pwInnerBody (gf : Grid → ℝ → Grid) (draws : ℕ → ℝ)
    (target_pattern : Grid) (target_cd_nm original_sigma dose : ℝ)
    (st2 : PWInnerState) (focus : ℝ) : PWInnerState :=
  let model := st2.1.1
  let original_dose := model.tool.dose_mJ_cm2
  let model' := { model with tool := { model.tool with dose_mJ_cm2 := dose } }
  let focus_sigma := original_sigma * (1.0 + |focus| / 100.0)
  let r := run_full_simulation gf draws model' st2.1.2 target_pattern
    target_cd_nm 30.0
  let model'' := r.2.1
  let model3 :=
    { model'' with tool := { model''.tool with dose_mJ_cm2 := original_dose } }
  ((model3, r.2.2),
   st2.2.1 ++ [r.1.metrics.cd_error_nm],
   st2.2.2 ++ [r.1.metrics.ler_nm])

/-- The body of the outer (dose) loop of `calculate_process_window`: run
the inner loop over all focus values and append the finished row of each
matrix. -/
noncomputable def pwOuterBody (gf : Grid → ℝ → Grid) (draws : ℕ → ℝ)
    (target_pattern : Grid) (target_cd_nm original_sigma : ℝ)
    (focus_values : List ℝ) (st : PWOuterState) (dose : ℝ) : PWOuterState :=
  let inner := focus_values.foldl
    (pwInnerBody gf draws target_pattern target_cd_nm original_sigma dose)
    (st.1, [], [])
  (inner.1, st.2.1 ++ [inner.2.1], st.2.2 ++ [inner.2.2])

/-- `calculate_process_window`.  The fold state carries the mutated model,
the draw cursor and the accumulated CD-error and LER matrices. -/
noncomputable def calculate_process_window (gf : Grid → ℝ → Grid)
    (draws : ℕ → ℝ) (model : Model) (k : ℕ) (target_cd_nm : ℝ)
    (dose_range focus_range : Option (ℝ × ℝ)) (steps : ℕ) :
    PWResult × Model × ℕ :=
  let dose_range := dose_range.getD
    (model.tool.dose_mJ_cm2 * 0.8, model.tool.dose_mJ_cm2 * 1.2)
  let focus_range := focus_range.getD (-40.0, 40.0)
  let dose_values := linspace dose_range.1 dose_range.2 steps
  let focus_values := linspace focus_range.1 focus_range.2 steps
  let target_pattern := pwTargetPattern model.constants target_cd_nm
  let original_sigma := 15.0 / model.constants.nm_per_pixel
  let outer := dose_values.foldl
    (pwOuterBody gf draws target_pattern target_cd_nm original_sigma
      focus_values)
    ((model, k), [], [])
  let cd_errors := outer.2.1
  let lers := outer.2.2
  let cd_window := cd_errors.map (List.map (fun c =>
    match c with
    | none => false
    | some v => decide (|v| < target_cd_nm * 0.1)))
  let ler_window := lers.map (List.map (fun l => decide (l < 1.5)))
  let process_window :=
    List.zipWith (List.zipWith (fun a b => a && b)) cd_window ler_window
  let window_area :=
    ((process_window.map (fun row => (row.countP id : ℕ))).sum : ℝ) /
      ((steps : ℝ) * steps)
  ({ dose_values := dose_values
     focus_values := focus_values
     cd_errors := cd_errors
     lers := lers
     process_window := process_window
     window_area := window_area
     target_cd_nm := target_cd_nm },
   outer.1.1, outer.1.2)

/-! ## Definitions written from the specification's words, for comparison
with the source embedding (refinement claims C7), and small helper
definitions used to state claims. -/

/-- The electron lands inside the h × w grid after displacing (dx, dy)
from source cell (x, y): the boundary check of the cascade. -/
def inGrid (x y h w : ℕ) (dx dy : ℤ) : Prop :=
  0 ≤ (x : ℤ) + dx ∧ (x : ℤ) + dx < w ∧ 0 ≤ (y : ℤ) + dy ∧ (y : ℤ) + dy < h

instance (x y h w : ℕ) (dx dy : ℤ) : Decidable (inGrid x y h w dx dy) := by
  unfold inGrid
  infer_instance

/-- The scattering loop as the claim C7 words it: for each of the n
electrons of a source cell, read its two draws, ROUND the displacement to
the nearest integer cell offset, and deposit one unit of energy at the
target cell when it lies inside the grid, silently dropping it
otherwise. -/
noncomputable def scatterRounded (draws : ℕ → ℝ) (x y h w : ℕ) (n : ℕ)
    (st : Grid × ℕ) : Grid × ℕ :=
  ((List.range n).foldl (fun g i =>
      let dx := round (draws (st.2 + 2 * i))
      let dy := round (draws (st.2 + 2 * i + 1))
      if inGrid x y h w dx dy then
        setAdd g ((y : ℤ) + dy).toNat ((x : ℤ) + dx).toNat 1.0
      else g)
    st.1, st.2 + 2 * n)

/-- The electron cascade exactly as claim C7 words it: each cell with
positive photon value generates ⌊value × yield⌋ electrons, whose rounded
Gaussian displacements deposit one unit each inside the grid. -/
noncomputable def cascadeClaimRounded (resist : ResistParams)
    (draws : ℕ → ℝ) (k : ℕ) (photon_map : Grid) : Grid × ℕ :=
  let height := photon_map.length
  let width := (photon_map.headD []).length
  (List.range height).foldl (fun st y =>
    (List.range width).foldl (fun st x =>
      if cell photon_map y x > 0 then
        scatterRounded draws x y height width
          ⌊cell photon_map y x * resist.secondary_electron_yield⌋.toNat st
      else st) st) (zerosLike photon_map, k)

/-- The scattering loop as the amended claim words it: identical to
`scatterRounded` except that the displacement is truncated toward zero
(Python `int()`), matching the source. -/
noncomputable def scatterTruncated (draws : ℕ → ℝ) (x y h w : ℕ) (n : ℕ)
    (st : Grid × ℕ) : Grid × ℕ :=
  ((List.range n).foldl (fun g i =>
      let dx := truncInt (draws (st.2 + 2 * i))
      let dy := truncInt (draws (st.2 + 2 * i + 1))
      if inGrid x y h w dx dy then
        setAdd g ((y : ℤ) + dy).toNat ((x : ℤ) + dx).toNat 1.0
      else g)
    st.1, st.2 + 2 * n)

/-- The electron cascade as the amended claim C7 words it: ⌊value × yield⌋
electrons per positive cell, displacements truncated toward zero, one unit
deposited inside the grid, electrons outside silently dropped. -/
noncomputable def cascadeClaimTruncated (resist : ResistParams)
    (draws : ℕ → ℝ) (k : ℕ) (photon_map : Grid) : Grid × ℕ :=
  let height := photon_map.length
  let width := (photon_map.headD []).length
  (List.range height).foldl (fun st y =>
    (List.range width).foldl (fun st x =>
      if cell photon_map y x > 0 then
        scatterTruncated draws x y height width
          ⌊cell photon_map y x * resist.secondary_electron_yield⌋.toNat st
      else st) st) (zerosLike photon_map, k)

/-- An h × w photon map whose only nonzero cell is (y, x) with value v:
the single isolated exposed cell of claim C6. -/
noncomputable def singleCellGrid (h w y x : ℕ) (v : ℝ) : Grid :=
  (List.range h).map (fun i =>
    (List.range w).map (fun j => if i = y ∧ j = x then v else 0))

/-- Number of zero cells (removed resist) of a pattern grid. -/
noncomputable def zeroCells (g : Grid) : ℕ :=
  (g.map (fun row => row.countP (fun v => decide (v = 0)))).sum

/-! ## Helper lemmas about grids and folds -/

theorem gmap_gmap (f g : ℝ → ℝ) (l : Grid) :
    gmap f (gmap g l) = gmap (fun x => f (g x)) l := by
  simp [gmap, List.map_map, Function.comp_def]

theorem gmap_congr (f g : ℝ → ℝ) (l : Grid) (h : ∀ x, f x = g x) :
    gmap f l = gmap g l := by
  have : f = g := funext h
  rw [this]

theorem zipWith_map_same (f : ℝ → ℝ → ℝ) (g h : ℝ → ℝ) (l : List ℝ) :
    List.zipWith f (l.map g) (l.map h) = l.map (fun x => f (g x) (h x)) := by
  induction l with
  | nil => rfl
  | cons a l ih => simp only [List.map_cons, List.zipWith_cons_cons, ih]

theorem gzip_gmap_gmap (f : ℝ → ℝ → ℝ) (g h : ℝ → ℝ) (l : Grid) :
    gzip f (gmap g l) (gmap h l) = gmap (fun x => f (g x) (h x)) l := by
  induction l with
  | nil => rfl
  | cons row rows ih =>
      simp only [gzip, gmap, List.map_cons, List.zipWith_cons_cons] at ih ⊢
      rw [zipWith_map_same]
      exact congrArg _ ih

theorem onesLike_gmap (f : ℝ → ℝ) (l : Grid) :
    onesLike (gmap f l) = gmap (fun _ => 1) l := by
  unfold onesLike
  rw [gmap_gmap]

/-- `simulate_development` acts pointwise: each cell becomes 1.0 exactly
when 40 minus rate times time is positive, else 0.0. -/
theorem simulate_development_pointwise (rate_map : Grid) (t : ℝ) :
    simulate_development rate_map t =
      gmap (fun r => if 40.0 - r * t > 0 then 1.0 else 0.0) rate_map := by
  unfold simulate_development
  simp only [gzip_gmap_gmap, gmap_gmap]
  exact gmap_congr _ _ _ (fun x => by norm_num)

theorem foldl_skip {α β : Type} (f : β → α → β) :
    ∀ (l : List α) (init : β), (∀ b a, a ∈ l → f b a = b) →
      l.foldl f init = init
  | [], _, _ => rfl
  | a :: l, init, h => by
      rw [List.foldl_cons, h init a (List.mem_cons_self a l)]
      exact foldl_skip f l init (fun b x hx => h b x (List.mem_cons_of_mem a hx))

theorem foldl_fire {α β : Type} (f : β → α → β) :
    ∀ (l : List α) (p : α) (init : β), p ∈ l → l.Nodup →
      (∀ b a, a ∈ l → a ≠ p → f b a = b) → l.foldl f init = f init p := by
  intro l
  induction l with
  | nil => intro p init hp _ _; cases hp
  | cons a l ih =>
      intro p init hp hnd hskip
      rcases List.mem_cons.mp hp with rfl | hpl
      · rw [List.foldl_cons]
        refine foldl_skip f l (f init p) (fun b x hx => ?_)
        refine hskip b x (List.mem_cons_of_mem p hx) (fun hxp => ?_)
        exact (List.nodup_cons.mp hnd).1 (hxp ▸ hx)
      · have ha : a ≠ p := fun hap => (List.nodup_cons.mp hnd).1 (hap ▸ hpl)
        rw [List.foldl_cons, hskip init a (List.mem_cons_self a l) ha]
        exact ih p init hpl (List.nodup_cons.mp hnd).2
          (fun b x hx => hskip b x (List.mem_cons_of_mem a hx))

theorem foldl_ignore {α β : Type} (f : β → α → β)
    (hf : ∀ b a a', f b a = f b a') :
    ∀ (l₁ l₂ : List α), l₁.length = l₂.length → ∀ init : β,
      l₁.foldl f init = l₂.foldl f init
  | [], [], _, _ => rfl
  | [], a :: l, h, _ => by simp at h
  | a :: l, [], h, _ => by simp at h
  | a :: l₁, a' :: l₂, h, init => by
      rw [List.foldl_cons, List.foldl_cons, hf init a a']
      exact foldl_ignore f hf l₁ l₂ (by simpa using h) (f init a')

theorem foldl_congr_fun {α β : Type} (f g : β → α → β)
    (h : ∀ b a, f b a = g b a) (l : List α) (init : β) :
    l.foldl f init = l.foldl g init := by
  have : f = g := funext (fun b => funext (h b))
  rw [this]

theorem length_linspace (a b : ℝ) (num : ℕ) :
    (linspace a b num).length = num := by
  unfold linspace
  split_ifs with h0 h1
  · simp [h0]
  · simp [h1]
  · rw [List.length_map, List.length_range]

/-! ## Claim theorems: error handling and numeric checks -/

/-- Claim C2 (code_bug evidence): for a resist chemistry that is neither
CAR nor MeOx, `simulate_chemical_reactions` does NOT fail fast: it
silently returns the all-zero acid map.  Evaluated at chemistry "DSA" on
the electron map [[1.0]]. -/
theorem c2_unknown_chemistry_silent_zero_map :
    simulate_chemical_reactions { defaultResist with type := "DSA" } [[1.0]]
      = [[0.0]] := by
  norm_num [simulate_chemical_reactions, defaultResist, zerosLike, gmap]
  rw [if_neg (by decide), if_neg (by decide)]

/-- Claim C3 (code_bug evidence): on a pattern with no detected low-to-high
edge (fewer than two edges), `calculate_stochastic_metrics` reports
LER = 0 as claimed, but the CD measurement is `np.mean` of an empty array,
i.e. the silently propagating float NaN (modelled as `none`), not a typed
undefined-result state. -/
theorem c3_cd_error_is_nan_without_edges :
    (edgePositions [[0, 0], [0, 0]]).length < 2 ∧
    (calculate_stochastic_metrics defaultConstants [[0, 0], [0, 0]] 32).ler_nm
      = 0 ∧
    (calculate_stochastic_metrics defaultConstants [[0, 0], [0, 0]] 32).cd_error_nm
      = none := by
  have hedges : edgePositions [[0, 0], [0, 0]] = [] := by
    norm_num [edgePositions, npDiff, List.filter_cons]
  refine ⟨by rw [hedges]; norm_num, ?_, ?_⟩
  · norm_num [calculate_stochastic_metrics, hedges]
  · norm_num [calculate_stochastic_metrics, hedges, npDiff, npMean]

/-- Claim C5 (code_bug evidence): with the default dose 30 mJ/cm² and
eV-per-photon 92, `calculate_photon_statistics` reports
photons_per_nm2 = 3000000/147384 ≈ 20.36, which is NOT equal to
2.45×10¹ = 24.5 within 2% (the relative error is about 17%), contradicting
the repository's own validation test and documented constant. -/
theorem c5_photons_per_nm2_off_target :
    (calculate_photon_statistics defaultTool defaultConstants 1).1.photons_per_nm2
      = 3000000 / 147384 ∧
    0.02 * 2.45e1 <
      |(calculate_photon_statistics defaultTool defaultConstants 1).1.photons_per_nm2
        - 2.45e1| := by
  have hval : (calculate_photon_statistics defaultTool
      defaultConstants 1).1.photons_per_nm2 = 3000000 / 147384 := by
    norm_num [calculate_photon_statistics, defaultTool, defaultConstants]
  refine ⟨hval, ?_⟩
  rw [hval]
  rw [abs_of_nonpos (by norm_num)]
  norm_num

/-- Claim C8 (code_bug evidence): for area ≤ 0 the code does not report
zeros with a sentinel.  At area −1 the total photon count is negative (not
0) and the shot noise is the float NaN from the square root of a negative
number; at area 0 the relative shot noise is the float NaN produced by the
0.0/0.0 division (both NaN results modelled as `none`). -/
theorem c8_nonpositive_area_not_sanitized :
    (calculate_photon_statistics defaultTool defaultConstants (-1)).1.total_photons
      < 0 ∧
    (calculate_photon_statistics defaultTool defaultConstants (-1)).1.shot_noise
      = none ∧
    (calculate_photon_statistics defaultTool defaultConstants 0).1.relative_shot_noise
      = none := by
  have htot : (calculate_photon_statistics defaultTool
      defaultConstants (-1)).1.total_photons = -(3000000 / 147384 * 1e6) := by
    norm_num [calculate_photon_statistics, defaultTool, defaultConstants]
  refine ⟨by rw [htot]; norm_num, ?_, ?_⟩
  · norm_num [calculate_photon_statistics, defaultTool, defaultConstants]
  · norm_num [calculate_photon_statistics, defaultTool, defaultConstants]

/-! ## Development model claims (C1, C9, C10) -/

/-- With the default resist parameters the sigmoid development rate is
strictly below the 0.5 nm/s base rate everywhere, so 30 s of development
removes strictly less than 15 nm of the 40 nm resist: every cell of the
developed pattern is 1.0. -/
theorem dev_rate_default (D : Grid) :
    simulate_development (calculate_development_rate defaultResist D) 30.0
      = gmap (fun _ => 1.0) D := by
  rw [simulate_development_pointwise]
  unfold calculate_development_rate
  rw [gmap_gmap]
  apply gmap_congr
  intro c
  rw [if_pos]
  have he := Real.exp_pos
    (-defaultResist.development_contrast * (c - 0.5))
  have hd : defaultResist.development_rate_base_nm_s /
      (1.0 + Real.exp (-defaultResist.development_contrast * (c - 0.5)))
      ≤ defaultResist.development_rate_base_nm_s := by
    apply div_le_self
    · norm_num [defaultResist]
    · linarith
  have hb : defaultResist.development_rate_base_nm_s = 0.5 := by
    norm_num [defaultResist]
  rw [hb]
  rw [hb] at hd
  linarith

/-- Claim C1: for every target pattern, with the default resist
parameters (base rate 0.5 nm/s, contrast 4.5) and 30 s of development,
the final pattern of `run_full_simulation` is exactly 1.0 at every cell:
the sigmoid rate is strictly below the base rate so at most 15 nm of the
40 nm resist is ever removed. -/
theorem c1_run_full_simulation_all_ones (gf : Grid → ℝ → Grid)
    (draws : ℕ → ℝ) (tool : ToolParams) (constants : PhysConstants)
    (metrics : Metrics) (k : ℕ) (target_pattern : Grid) (target_cd_nm : ℝ) :
    (run_full_simulation gf draws ⟨tool, defaultResist, constants, metrics⟩ k
        target_pattern target_cd_nm 30.0).1.final_pattern =
      onesLike ((run_full_simulation gf draws
        ⟨tool, defaultResist, constants, metrics⟩ k
        target_pattern target_cd_nm 30.0).1.final_pattern) := by
  simp only [run_full_simulation]
  rw [dev_rate_default, onesLike_gmap]
  exact gmap_congr _ _ _ (fun x => by norm_num)

/-- Claim C10: the development rate is the pointwise logistic
`base / (1 + exp(-contrast (c - 0.5)))` of acid concentration, and
`simulate_development` is exactly 1.0 where `40 - rate*time > 0` and
exactly 0.0 elsewhere — in particular, the output is strictly binary. -/
theorem c10_development_formulas (resist : ResistParams)
    (acid_map rate_map : Grid) (t : ℝ) :
    calculate_development_rate resist acid_map =
      gmap (fun c => resist.development_rate_base_nm_s /
        (1 + Real.exp (-resist.development_contrast * (c - 0.5)))) acid_map ∧
    simulate_development rate_map t =
      gmap (fun r => if 40.0 - r * t > 0 then 1.0 else 0.0) rate_map ∧
    ∀ row ∈ simulate_development rate_map t, ∀ v ∈ row,
      v = 1.0 ∨ v = 0.0 := by
  refine ⟨?_, simulate_development_pointwise rate_map t, ?_⟩
  · unfold calculate_development_rate
    exact gmap_congr _ _ _ (fun c => by norm_num)
  · intro row hrow v hv
    rw [simulate_development_pointwise] at hrow
    simp only [gmap, List.mem_map] at hrow
    obtain ⟨row0, _, rfl⟩ := hrow
    simp only [List.mem_map] at hv
    obtain ⟨r0, _, rfl⟩ := hv
    split_ifs
    · left; rfl
    · right; rfl

/-- Witness for C10: instantiated at the rate map [[0]] and time 1, every
cell of the developed pattern is binary. -/
theorem c10_witness : (1.0 : ℝ) = 1.0 ∨ (1.0 : ℝ) = 0.0 := by
  have h := c10_development_formulas defaultResist [[0]] [[0]] 1
  have hdev : simulate_development [[0]] 1 = [[1.0]] := by
    rw [h.2.1]
    norm_num [gmap]
  exact h.2.2 [1.0] (by rw [hdev]; exact List.mem_singleton.mpr rfl) 1.0
    (List.mem_singleton.mpr rfl)

theorem zeroCells_gmap (f : ℝ → ℝ) (g : Grid) :
    zeroCells (gmap f g) =
      (g.map (fun row => row.countP (fun v => decide (f v = 0)))).sum := by
  unfold zeroCells gmap
  rw [List.map_map]
  refine congrArg List.sum (List.map_congr_left ?_)
  intro row _
  simp only [Function.comp_apply]
  rw [List.countP_map]
  rfl

/-- Claim C9 (counterexample): removed-resist area is NOT strictly
increasing in development time before full removal.  With the rate map
[[0.1]] the single cell survives both 1 s and 2 s of development: the
zero-cell count stays 0 < 0 fails, while the pattern is not yet fully
removed (0 < 1 cell). -/
theorem c9_counterexample :
    ¬ (zeroCells (simulate_development [[0.1]] 1) <
        zeroCells (simulate_development [[0.1]] 2)) ∧
    zeroCells (simulate_development [[0.1]] 1) < gridSize [[0.1]] := by
  have h1 : simulate_development [[0.1]] 1 = [[1.0]] := by
    rw [simulate_development_pointwise]
    norm_num [gmap]
  have h2 : simulate_development [[0.1]] 2 = [[1.0]] := by
    rw [simulate_development_pointwise]
    norm_num [gmap]
  rw [h1, h2]
  norm_num [zeroCells, gridSize, List.countP_cons, List.countP_nil]

/-- Claim C9 as amended: for development times 0 ≤ t1 ≤ t2 the number of
zero cells (removed resist) of `simulate_development` is non-decreasing,
and once every cell is removed it stays fully removed; the increase is not
strict in general. -/
theorem c9_amended_development_monotone (r : Grid) (t1 t2 : ℝ)
    (h0 : 0 ≤ t1) (h12 : t1 ≤ t2) :
    zeroCells (simulate_development r t1) ≤
      zeroCells (simulate_development r t2) ∧
    (zeroCells (simulate_development r t1) = gridSize r →
      zeroCells (simulate_development r t2) = gridSize r) := by
  have hmono : zeroCells (simulate_development r t1) ≤
      zeroCells (simulate_development r t2) := by
    rw [simulate_development_pointwise, simulate_development_pointwise,
        zeroCells_gmap, zeroCells_gmap]
    apply List.sum_le_sum
    intro row _
    apply List.countP_mono_left
    intro v _ hp
    simp only [decide_eq_true_eq] at hp ⊢
    by_cases hgt : 40.0 - v * t1 > 0
    · rw [if_pos hgt] at hp
      norm_num at hp
    · have hv0 : 0 ≤ v := by
        by_contra hneg
        push_neg at hneg
        have : v * t1 ≤ 0 := mul_nonpos_of_nonpos_of_nonneg hneg.le h0
        push_neg at hgt
        nlinarith
      have hle : v * t1 ≤ v * t2 := mul_le_mul_of_nonneg_left h12 hv0
      rw [if_neg (by push_neg at hgt ⊢; linarith)]
      norm_num
  have hbound : zeroCells (simulate_development r t2) ≤ gridSize r := by
    rw [simulate_development_pointwise, zeroCells_gmap]
    unfold gridSize
    apply List.sum_le_sum
    intro row _
    exact List.countP_le_length _
  exact ⟨hmono, fun hfull => le_antisymm hbound (hfull ▸ hmono)⟩

/-- Witness for the amended C9 at the rate map [[1]] and times 1 ≤ 2. -/
theorem c9_witness :
    zeroCells (simulate_development [[1]] 1) ≤
      zeroCells (simulate_development [[1]] 2) :=
  (c9_amended_development_monotone [[1]] 1 2 (by norm_num) (by norm_num)).1

/-! ## Claim C4: the process-window sweep never uses the focus value -/

/-- The inner loop body never reads its focus argument: the focus-adjusted
sigma it computes is dead code. -/
theorem pwInnerBody_ignores_focus (gf : Grid → ℝ → Grid) (draws : ℕ → ℝ)
    (tp : Grid) (cd sg d : ℝ) (st2 : PWInnerState) (f1 f2 : ℝ) :
    pwInnerBody gf draws tp cd sg d st2 f1 =
      pwInnerBody gf draws tp cd sg d st2 f2 := rfl

/-- The outer loop body gives the same result for any two focus-value
lists of equal length. -/
theorem pwOuterBody_ignores_focus_values (gf : Grid → ℝ → Grid)
    (draws : ℕ → ℝ) (tp : Grid) (cd sg : ℝ) (fva fvb : List ℝ)
    (hlen : fva.length = fvb.length) (st : PWOuterState) (d : ℝ) :
    pwOuterBody gf draws tp cd sg fva st d =
      pwOuterBody gf draws tp cd sg fvb st d := by
  unfold pwOuterBody
  rw [foldl_ignore (pwInnerBody gf draws tp cd sg d)
    (fun b a a' => pwInnerBody_ignores_focus gf draws tp cd sg d b a a')
    fva fvb hlen]

/-- Claim C4: `calculate_process_window` does not depend on the focus
values.  Two calls that differ only in `focus_range` (same dose range,
same step count, same draw stream and cursor) return identical cd_errors,
lers, process_window matrices and window_area; the window boolean matrix
is independent of the focus axis. -/
theorem c4_process_window_focus_independent (gf : Grid → ℝ → Grid)
    (draws : ℕ → ℝ) (model : Model) (k : ℕ) (target_cd_nm : ℝ)
    (dose_range fr1 fr2 : Option (ℝ × ℝ)) (steps : ℕ) :
    (calculate_process_window gf draws model k target_cd_nm dose_range fr1
        steps).1.cd_errors =
      (calculate_process_window gf draws model k target_cd_nm dose_range fr2
        steps).1.cd_errors ∧
    (calculate_process_window gf draws model k target_cd_nm dose_range fr1
        steps).1.lers =
      (calculate_process_window gf draws model k target_cd_nm dose_range fr2
        steps).1.lers ∧
    (calculate_process_window gf draws model k target_cd_nm dose_range fr1
        steps).1.process_window =
      (calculate_process_window gf draws model k target_cd_nm dose_range fr2
        steps).1.process_window ∧
    (calculate_process_window gf draws model k target_cd_nm dose_range fr1
        steps).1.window_area =
      (calculate_process_window gf draws model k target_cd_nm dose_range fr2
        steps).1.window_area := by
  have hlen :
      (linspace (fr1.getD (-40.0, 40.0)).1 (fr1.getD (-40.0, 40.0)).2
        steps).length =
      (linspace (fr2.getD (-40.0, 40.0)).1 (fr2.getD (-40.0, 40.0)).2
        steps).length := by
    rw [length_linspace, length_linspace]
  have hfold : ∀ (dv : List ℝ) (init : PWOuterState),
      dv.foldl (pwOuterBody gf draws
        (pwTargetPattern model.constants target_cd_nm) target_cd_nm
        (15.0 / model.constants.nm_per_pixel)
        (linspace (fr1.getD (-40.0, 40.0)).1 (fr1.getD (-40.0, 40.0)).2
          steps)) init =
      dv.foldl (pwOuterBody gf draws
        (pwTargetPattern model.constants target_cd_nm) target_cd_nm
        (15.0 / model.constants.nm_per_pixel)
        (linspace (fr2.getD (-40.0, 40.0)).1 (fr2.getD (-40.0, 40.0)).2
          steps)) init := by
    intro dv init
    exact foldl_congr_fun _ _
      (fun st d => pwOuterBody_ignores_focus_values gf draws _ _ _ _ _
        hlen st d) dv init
  refine ⟨?_, ?_, ?_, ?_⟩ <;> simp only [calculate_process_window] <;>
    rw [hfold]

/-! ## Electron cascade lemmas (claims C6 and C7) -/

theorem sum_set_add :
    ∀ (l : List ℝ) (x : ℕ) (v : ℝ), x < l.length →
      (l.set x (l.getD x 0 + v)).sum = l.sum + v
  | [], x, v, h => by simp at h
  | a :: l, 0, v, _ => by
      simp only [List.getD_cons_zero, List.set_cons_zero, List.sum_cons]
      ring
  | a :: l, x + 1, v, h => by
      simp only [List.getD_cons_succ, List.set_cons_succ, List.sum_cons]
      rw [sum_set_add l x v (by simpa using h)]
      ring

theorem gridSum_setAdd :
    ∀ (g : Grid) (y x : ℕ) (v : ℝ), y < g.length →
      x < (g.getD y []).length →
      gridSum (setAdd g y x v) = gridSum g + v
  | [], y, x, v, hy, _ => by simp at hy
  | row :: rows, 0, x, v, _, hx => by
      simp only [List.getD_cons_zero] at hx ⊢
      simp only [setAdd, List.getD_cons_zero, List.set_cons_zero, gridSum,
        List.map_cons, List.sum_cons]
      rw [sum_set_add row x v hx]
      ring
  | row :: rows, y + 1, x, v, hy, hx => by
      simp only [List.getD_cons_succ] at hx ⊢
      simp only [setAdd, List.getD_cons_succ, List.set_cons_succ, gridSum,
        List.map_cons, List.sum_cons]
      have := gridSum_setAdd rows y x v (by simpa using hy) hx
      simp only [setAdd, gridSum] at this
      rw [this]
      ring

theorem rect_row_length {h w : ℕ} {g : Grid} (hg : Rect h w g) {y : ℕ}
    (hy : y < h) : (g.getD y []).length = w := by
  have hyl : y < g.length := hg.1 ▸ hy
  rw [List.getD_eq_getElem g [] hyl]
  exact hg.2 _ (List.getElem_mem hyl)

theorem rect_setAdd {h w : ℕ} {g : Grid} (hg : Rect h w g) {y x : ℕ}
    (hy : y < h) (v : ℝ) : Rect h w (setAdd g y x v) := by
  constructor
  · rw [setAdd, List.length_set]
    exact hg.1
  · intro row hrow
    rcases List.mem_or_eq_of_mem_set hrow with hmem | rfl
    · exact hg.2 row hmem
    · rw [List.length_set]
      exact rect_row_length hg hy

theorem rect_gmap {h w : ℕ} {g : Grid} (hg : Rect h w g) (f : ℝ → ℝ) :
    Rect h w (gmap f g) := by
  constructor
  · rw [gmap, List.length_map]
    exact hg.1
  · intro row hrow
    rw [gmap] at hrow
    obtain ⟨r0, hr0, rfl⟩ := List.mem_map.mp hrow
    rw [List.length_map]
    exact hg.2 r0 hr0

theorem gridSum_zerosLike (g : Grid) : gridSum (zerosLike g) = 0 := by
  have hrow : ∀ row : List ℝ, (row.map (fun _ => (0:ℝ))).sum = 0 := by
    intro row
    induction row with
    | nil => simp
    | cons a l ih => simp [ih]
  unfold gridSum zerosLike gmap
  rw [List.map_map]
  induction g with
  | nil => simp
  | cons row rows ih =>
      simp only [List.map_cons, List.sum_cons, Function.comp_apply, ih]
      rw [hrow row]
      ring

theorem toNat_truncInt_eq_toNat_floor (x : ℝ) :
    (truncInt x).toNat = ⌊x⌋.toNat := by
  unfold truncInt
  split_ifs with h
  · rfl
  · push_neg at h
    have h1 : ⌈x⌉ ≤ 0 := Int.ceil_le.mpr (by exact_mod_cast h.le)
    have h2 : ⌊x⌋ ≤ 0 := Int.floor_nonpos h.le
    omega

theorem rect_singleCellGrid (h w y x : ℕ) (v : ℝ) :
    Rect h w (singleCellGrid h w y x v) := by
  constructor
  · simp [singleCellGrid]
  · intro row hrow
    simp only [singleCellGrid, List.mem_map] at hrow
    obtain ⟨i, _, rfl⟩ := hrow
    simp

theorem cell_singleCellGrid {h w : ℕ} (y x : ℕ) (v : ℝ) {i j : ℕ}
    (hi : i < h) (hj : j < w) :
    cell (singleCellGrid h w y x v) i j = if i = y ∧ j = x then v else 0 := by
  unfold cell singleCellGrid
  simp only [List.getD_eq_getElem?_getD, List.getElem?_map,
    List.getElem?_range hi, List.getElem?_range hj]
  simp [List.getElem?_map, List.getElem?_range hj]

/-- Each electron whose (truncated) displaced target lies inside the grid
adds exactly one unit of energy: over n such electrons the grid total
grows by n, and the grid stays rectangular. -/
theorem depositElectrons_gridSum (draws : ℕ → ℝ) (x y h w : ℕ) (n : ℕ) :
    ∀ (g : Grid) (k : ℕ), Rect h w g →
      (∀ i, i < n → inGrid x y h w (truncInt (draws (k + 2 * i)))
        (truncInt (draws (k + 2 * i + 1)))) →
      gridSum (depositElectrons draws x y h w n (g, k)).1 = gridSum g + n ∧
      Rect h w (depositElectrons draws x y h w n (g, k)).1 := by
  induction n with
  | zero =>
      intro g k hg _
      simp only [depositElectrons, Nat.cast_zero, add_zero]
      exact ⟨trivial, hg⟩
  | succ n ih =>
      intro g k hg hin
      have h0 := hin 0 (Nat.succ_pos n)
      simp only [Nat.mul_zero, Nat.add_zero] at h0
      unfold inGrid at h0
      obtain ⟨hx0, hx1, hy0, hy1⟩ := h0
      have hyh : ((y : ℤ) + truncInt (draws (k + 1))).toNat < h := by omega
      have hxw : ((x : ℤ) + truncInt (draws k)).toNat < w := by omega
      simp only [depositElectrons]
      rw [if_pos ⟨hx0, hx1, hy0, hy1⟩]
      have hrect' :
          Rect h w (setAdd g ((y : ℤ) + truncInt (draws (k + 1))).toNat
            ((x : ℤ) + truncInt (draws k)).toNat 1.0) :=
        rect_setAdd hg hyh 1.0
      have hin' : ∀ i, i < n →
          inGrid x y h w (truncInt (draws (k + 2 + 2 * i)))
            (truncInt (draws (k + 2 + 2 * i + 1))) := by
        intro i hi
        have := hin (i + 1) (Nat.succ_lt_succ hi)
        have harith : k + 2 * (i + 1) = k + 2 + 2 * i := by ring
        rwa [harith] at this
      obtain ⟨hsum, hrect⟩ := ih _ (k + 2) hrect' hin'
      refine ⟨?_, hrect⟩
      rw [hsum]
      rw [gridSum_setAdd g _ _ 1.0 (by rw [hg.1]; exact hyh)
        (by rw [rect_row_length hg hyh]; exact hxw)]
      push_cast
      ring

/-- On a photon map with a single positive cell, the cascade reduces to
the electron loop of that one cell: every other cell is skipped without
consuming any draw. -/
theorem cascade_singleCell_eq_deposit (resist : ResistParams)
    (draws : ℕ → ℝ) (k : ℕ) {h w : ℕ} (y x : ℕ) (v : ℝ) (hy : y < h)
    (hx : x < w) (hv : v > 0) :
    simulate_electron_cascade resist draws k (singleCellGrid h w y x v) =
      depositElectrons draws x y h w
        ((truncInt (v * resist.secondary_electron_yield)).toNat)
        (zerosLike (singleCellGrid h w y x v), k) := by
  have hlen : (singleCellGrid h w y x v).length = h :=
    (rect_singleCellGrid h w y x v).1
  have hhead : ((singleCellGrid h w y x v).headD []).length = w := by
    obtain ⟨m, rfl⟩ : ∃ m, h = m + 1 := ⟨h - 1, by omega⟩
    simp [singleCellGrid, List.range_succ_eq_map]
  have hcell0 : ∀ i j, i < h → j < w → ¬(i = y ∧ j = x) →
      cell (singleCellGrid h w y x v) i j = 0 := by
    intro i j hi hj hne
    rw [cell_singleCellGrid y x v hi hj, if_neg hne]
  have hcellyx : cell (singleCellGrid h w y x v) y x = v := by
    rw [cell_singleCellGrid y x v hy hx, if_pos ⟨rfl, rfl⟩]
  simp only [simulate_electron_cascade]
  rw [hlen, hhead]
  refine Eq.trans (foldl_fire _ (List.range h) y _ (List.mem_range.mpr hy)
    (List.nodup_range h) ?_) ?_
  · intro st i hi hne
    refine foldl_skip _ (List.range w) st ?_
    intro st2 j hj
    rw [hcell0 i j (List.mem_range.mp hi) (List.mem_range.mp hj)
      (fun hc => hne hc.1)]
    rw [if_neg (lt_irrefl (0:ℝ))]
  · refine Eq.trans (foldl_fire _ (List.range w) x _ (List.mem_range.mpr hx)
      (List.nodup_range w) ?_) ?_
    · intro st2 j hj hne
      rw [hcell0 y j hy (List.mem_range.mp hj) (fun hc => hne hc.2)]
      rw [if_neg (lt_irrefl (0:ℝ))]
    · rw [hcellyx, if_pos hv]

/-- On a photon map with a single positive cell, the claim-worded rounded
cascade likewise reduces to the scattering loop of that one cell. -/
theorem cascadeRounded_singleCell_eq_scatter (resist : ResistParams)
    (draws : ℕ → ℝ) (k : ℕ) {h w : ℕ} (y x : ℕ) (v : ℝ) (hy : y < h)
    (hx : x < w) (hv : v > 0) :
    cascadeClaimRounded resist draws k (singleCellGrid h w y x v) =
      scatterRounded draws x y h w
        ⌊v * resist.secondary_electron_yield⌋.toNat
        (zerosLike (singleCellGrid h w y x v), k) := by
  have hlen : (singleCellGrid h w y x v).length = h :=
    (rect_singleCellGrid h w y x v).1
  have hhead : ((singleCellGrid h w y x v).headD []).length = w := by
    obtain ⟨m, rfl⟩ : ∃ m, h = m + 1 := ⟨h - 1, by omega⟩
    simp [singleCellGrid, List.range_succ_eq_map]
  have hcell0 : ∀ i j, i < h → j < w → ¬(i = y ∧ j = x) →
      cell (singleCellGrid h w y x v) i j = 0 := by
    intro i j hi hj hne
    rw [cell_singleCellGrid y x v hi hj, if_neg hne]
  have hcellyx : cell (singleCellGrid h w y x v) y x = v := by
    rw [cell_singleCellGrid y x v hy hx, if_pos ⟨rfl, rfl⟩]
  simp only [cascadeClaimRounded]
  rw [hlen, hhead]
  refine Eq.trans (foldl_fire _ (List.range h) y _ (List.mem_range.mpr hy)
    (List.nodup_range h) ?_) ?_
  · intro st i hi hne
    refine foldl_skip _ (List.range w) st ?_
    intro st2 j hj
    rw [hcell0 i j (List.mem_range.mp hi) (List.mem_range.mp hj)
      (fun hc => hne hc.1)]
    rw [if_neg (lt_irrefl (0:ℝ))]
  · refine Eq.trans (foldl_fire _ (List.range w) x _ (List.mem_range.mpr hx)
      (List.nodup_range w) ?_) ?_
    · intro st2 j hj hne
      rw [hcell0 y j hy (List.mem_range.mp hj) (fun hc => hne hc.2)]
      rw [if_neg (lt_irrefl (0:ℝ))]
    · rw [hcellyx, if_pos hv]

/-- Claim C6 (counterexample): with a 1 × 1 photon map whose cell is 1.0
and all realized draws 0 (so no electron is lost at a boundary), the
deposited total is exactly 3 = ⌊1.0 × 3.2⌋, which is NOT within 6% of 3.2
(the error is 6.25%). -/
theorem c6_counterexample :
    gridSum (simulate_electron_cascade defaultResist (fun _ => 0) 0
      [[1.0]]).1 = 3 ∧
    ¬ (|gridSum (simulate_electron_cascade defaultResist (fun _ => 0) 0
      [[1.0]]).1 - 3.2| ≤ 0.06 * 3.2) := by
  have hpm : ([[1.0]] : Grid) = singleCellGrid 1 1 0 0 1.0 := by
    simp [singleCellGrid, List.range_succ]
  have hsum : gridSum (simulate_electron_cascade defaultResist (fun _ => 0) 0
      [[1.0]]).1 = 3 := by
    rw [hpm, cascade_singleCell_eq_deposit defaultResist (fun _ => 0) 0 0 0
      1.0 one_pos one_pos (by norm_num)]
    have hcount :
        (truncInt ((1.0:ℝ) * defaultResist.secondary_electron_yield)).toNat
          = 3 := by
      have h32 : truncInt ((1.0:ℝ) * defaultResist.secondary_electron_yield)
          = 3 := by
        norm_num [defaultResist, truncInt]
      rw [h32]
      rfl
    rw [hcount]
    have hin : ∀ i, i < 3 → inGrid 0 0 1 1 (truncInt ((fun _ => (0:ℝ)) (0 + 2 * i)))
        (truncInt ((fun _ => (0:ℝ)) (0 + 2 * i + 1))) := by
      intro i _
      norm_num [inGrid, truncInt]
    have hd := depositElectrons_gridSum (fun _ => 0) 0 0 1 1 3
      (zerosLike (singleCellGrid 1 1 0 0 1.0)) 0
      (rect_gmap (rect_singleCellGrid 1 1 0 0 1.0) _) hin
    rw [hd.1, gridSum_zerosLike]
    norm_num
  refine ⟨hsum, ?_⟩
  rw [hsum]
  rw [abs_of_nonpos (by norm_num)]
  norm_num

/-- Claim C6 as amended: for every grid size, cell position and draw
stream whose three electrons all land inside the grid, the cascade on a
photon map whose only positive cell has value 1.0 deposits a total of
exactly 3 = ⌊1.0 × 3.2⌋ units (6.25% below the yield 3.2). -/
theorem c6_amended_single_cell_total (h w y x k : ℕ) (draws : ℕ → ℝ)
    (hy : y < h) (hx : x < w)
    (hin : ∀ i, i < 3 → inGrid x y h w (truncInt (draws (k + 2 * i)))
      (truncInt (draws (k + 2 * i + 1)))) :
    gridSum (simulate_electron_cascade defaultResist draws k
      (singleCellGrid h w y x 1.0)).1 = 3 := by
  rw [cascade_singleCell_eq_deposit defaultResist draws k y x 1.0 hy hx
    (by norm_num)]
  have hcount :
      (truncInt ((1.0:ℝ) * defaultResist.secondary_electron_yield)).toNat
        = 3 := by
    have h32 : truncInt ((1.0:ℝ) * defaultResist.secondary_electron_yield)
        = 3 := by
      norm_num [defaultResist, truncInt]
    rw [h32]
    rfl
  rw [hcount]
  have hd := depositElectrons_gridSum draws x y h w 3
    (zerosLike (singleCellGrid h w y x 1.0)) k
    (rect_gmap (rect_singleCellGrid h w y x 1.0) _) hin
  rw [hd.1, gridSum_zerosLike]
  norm_num

/-- Witness for the amended C6: a 2 × 2 grid, source cell (1, 1), draw
stream constantly 0.3 (truncated displacement 0, all three electrons land
inside), deposited total exactly 3. -/
theorem c6_witness :
    gridSum (simulate_electron_cascade defaultResist (fun _ => 0.3) 5
      (singleCellGrid 2 2 1 1 1.0)).1 = 3 := by
  refine c6_amended_single_cell_total 2 2 1 1 5 (fun _ => 0.3)
    (by norm_num) (by norm_num) ?_
  intro i _
  norm_num [inGrid, truncInt]

/-- The source's electron loop (state-threaded recursion) computes the
same map and cursor as the spec-worded per-electron fold with truncated
displacements. -/
theorem foldl_range_succ_shift {β : Type} (B : β → ℕ → β) (n : ℕ)
    (init : β) :
    (List.range (n + 1)).foldl B init =
      (List.range n).foldl (fun acc i => B acc (i + 1)) (B init 0) := by
  rw [List.range_succ_eq_map, List.foldl_cons, List.foldl_map]

/-- Peeling the first electron off the spec-worded scattering fold. -/
theorem scatterTruncated_succ (draws : ℕ → ℝ) (x y h w n : ℕ) (g : Grid)
    (k : ℕ) :
    scatterTruncated draws x y h w (n + 1) (g, k) =
      scatterTruncated draws x y h w n
        ((if inGrid x y h w (truncInt (draws k)) (truncInt (draws (k + 1)))
          then setAdd g ((y : ℤ) + truncInt (draws (k + 1))).toNat
            ((x : ℤ) + truncInt (draws k)).toNat 1.0
          else g), k + 2) := by
  unfold scatterTruncated
  rw [foldl_range_succ_shift]
  simp only [Prod.mk.injEq]
  constructor
  · have hsh : ∀ i : ℕ, k + 2 * (i + 1) = k + 2 + 2 * i := fun i => by ring
    simp only [Nat.mul_zero, Nat.add_zero, hsh]
  · show k + 2 * (n + 1) = k + 2 + 2 * n
    omega

/-- The source's electron loop (state-threaded recursion) computes the
same map and cursor as the spec-worded per-electron fold with truncated
displacements. -/
theorem depositElectrons_eq_scatterTruncated (draws : ℕ → ℝ)
    (x y h w : ℕ) :
    ∀ (n : ℕ) (g : Grid) (k : ℕ),
      depositElectrons draws x y h w n (g, k) =
        scatterTruncated draws x y h w n (g, k) := by
  intro n
  induction n with
  | zero =>
      intro g k
      simp [depositElectrons, scatterTruncated]
  | succ n ih =>
      intro g k
      simp only [depositElectrons]
      rw [scatterTruncated_succ]
      rw [ih]
      have hcond :
          (0 ≤ (x : ℤ) + truncInt (draws k) ∧
            (x : ℤ) + truncInt (draws k) < (w : ℤ) ∧
            0 ≤ (y : ℤ) + truncInt (draws (k + 1)) ∧
            (y : ℤ) + truncInt (draws (k + 1)) < (h : ℤ)) =
          inGrid x y h w (truncInt (draws k)) (truncInt (draws (k + 1))) :=
        rfl
      refine congrArg _ (congrArg (fun z => (z, k + 2)) ?_)
      exact if_congr (iff_of_eq hcond) rfl rfl

/-- Claim C7 as amended: `simulate_electron_cascade` behaves exactly as
the claim describes except that each Gaussian displacement is truncated
toward zero (Python `int()`), not rounded to the nearest integer: per
positive cell it generates ⌊value × yield⌋ electrons and deposits one unit
for each whose truncated displaced target is inside the grid, silently
dropping the others. -/
theorem c7_amended_cascade_truncates (resist : ResistParams)
    (draws : ℕ → ℝ) (k : ℕ) (photon_map : Grid) :
    simulate_electron_cascade resist draws k photon_map =
      cascadeClaimTruncated resist draws k photon_map := by
  unfold simulate_electron_cascade cascadeClaimTruncated
  refine foldl_congr_fun _ _ ?_ _ _
  intro st y
  refine foldl_congr_fun _ _ ?_ _ _
  intro st2 x
  by_cases hc : cell photon_map y x > 0
  · rw [if_pos hc, if_pos hc, toNat_truncInt_eq_toNat_floor]
    obtain ⟨g2, k2⟩ := st2
    exact depositElectrons_eq_scatterTruncated draws x y _ _ _ g2 k2
  · rw [if_neg hc, if_neg hc]

set_option maxHeartbeats 1000000 in
/-- Claim C7 (counterexample): the cascade does NOT round displacements to
the nearest integer cell.  On the 1 x 3 photon map [[1.0, 0, 0]] with
realized draws (1.7, 0.3) for the first electron and 50 for the rest, the
code truncates 1.7 to 1 and deposits at column 1, while the claimed
rounding behavior would deposit at column 2. -/
theorem c7_counterexample :
    simulate_electron_cascade defaultResist
        (fun n => if n = 0 then (1.7:ℝ) else if n = 1 then 0.3 else 50) 0
        [[1.0, 0, 0]] ≠
      cascadeClaimRounded defaultResist
        (fun n => if n = 0 then (1.7:ℝ) else if n = 1 then 0.3 else 50) 0
        [[1.0, 0, 0]] := by
  have hpm3 : ([[1.0, 0, 0]] : Grid) = singleCellGrid 1 3 0 0 1.0 := by
    simp [singleCellGrid, List.range_succ]
  have hcount :
      (truncInt ((1.0:ℝ) * defaultResist.secondary_electron_yield)).toNat
        = 3 := by
    have h32 : truncInt ((1.0:ℝ) * defaultResist.secondary_electron_yield)
        = 3 := by
      norm_num [defaultResist, truncInt]
    rw [h32]
    rfl
  have hlhs : simulate_electron_cascade defaultResist
      (fun n => if n = 0 then (1.7:ℝ) else if n = 1 then 0.3 else 50) 0
      [[1.0, 0, 0]] = ([[0, 1.0, 0]], 6) := by
    rw [hpm3, cascade_singleCell_eq_deposit defaultResist _ 0 0 0 1.0
      one_pos (by norm_num) (by norm_num), hcount]
    norm_num [depositElectrons, truncInt, setAdd, zerosLike, gmap,
      singleCellGrid, List.range_succ]
    have hr1 : List.range 1 = [0] := rfl
    simp [hr1, Function.comp]
  have hcountR : (⌊(1.0:ℝ) * defaultResist.secondary_electron_yield⌋).toNat
      = 3 := by
    have h32 : ⌊(1.0:ℝ) * defaultResist.secondary_electron_yield⌋ = 3 := by
      norm_num [defaultResist]
    rw [h32]
    rfl
  have hrhs : cascadeClaimRounded defaultResist
      (fun n => if n = 0 then (1.7:ℝ) else if n = 1 then 0.3 else 50) 0
      [[1.0, 0, 0]] = ([[0, 0, 1.0]], 6) := by
    rw [hpm3, cascadeRounded_singleCell_eq_scatter defaultResist _ 0 0 0 1.0
      one_pos (by norm_num) (by norm_num), hcountR]
    norm_num [scatterRounded, inGrid, round_eq, setAdd, zerosLike, gmap,
      singleCellGrid, List.range_succ]
    have hr1 : List.range 1 = [0] := rfl
    simp [hr1, Function.comp]
  rw [hlhs, hrhs]
  simp only [Prod.mk.injEq, List.cons.injEq, ne_eq]
  norm_num

end DragonResist
